import Mathlib

/-!
Verification of the `LineSet` geometry component of Open3D
(`src/Open3D/Geometry/LineSet.h`).

The shallow embedding below models:
  * 3D points and RGB colors as triples of rationals (exact stand-in for
    IEEE doubles, since the properties of interest are algebraic);
  * `LineSet` as a structure of three lists (`points_`, `lines_`,
    `colors_` in the C++ source);
  * the inline member functions (`HasPoints`, `HasLines`, `HasColors`,
    `GetLineCoordinate`) directly from the header;
  * the out-of-line member functions and factory functions, whose
    bodies are not part of the given source, from the specification text
    (each such definition carries a `Modelled from the spec:` comment).

Unchecked C++ index accesses are embedded as `Option`-valued lookups:
`none` models the out-of-range fault.
-/

namespace Open3DLineSet

/-- A 3D vector of double-precision coordinates, modelled exactly over ℚ. -/
def Vector3 : Type := ℚ × ℚ × ℚ

instance : DecidableEq Vector3 := by
  unfold Vector3; infer_instance

instance : AddCommGroup Vector3 := by
  unfold Vector3; infer_instance

instance : Module ℚ Vector3 := by
  unfold Vector3; infer_instance

instance : Inhabited Vector3 := ⟨(0, 0, 0)⟩

/-- The `LineSet` data model: `points_` (3D coordinates), `lines_`
(pairs of indices into `points_`), `colors_` (RGB triples, parallel to
`lines_`), as declared in `LineSet.h` lines 168-174. -/
structure LineSet where
  points : List Vector3
  lines : List (Nat × Nat)
  colors : List Vector3
deriving DecidableEq

/-- `HasPoints`: `points_.size() > 0` (LineSet.h line 103). -/
def LineSet.HasPoints (L : LineSet) : Bool :=
  decide (0 < L.points.length)

/-- `HasLines`: `HasPoints() && lines_.size() > 0` (LineSet.h line 107). -/
def LineSet.HasLines (L : LineSet) : Bool :=
  L.HasPoints && decide (0 < L.lines.length)

/-- `HasColors`: `HasLines() && colors_.size() == lines_.size()`
(LineSet.h lines 110-112). -/
def LineSet.HasColors (L : LineSet) : Bool :=
  L.HasLines && decide (L.colors.length = L.lines.length)

/-- `GetLineCoordinate(line_index)` (LineSet.h lines 118-122): returns
`(points_[lines_[line_index][0]], points_[lines_[line_index][1]])`.
The C++ accesses are unchecked; the embedding returns `none` exactly
when an access would be out of range. -/
def LineSet.GetLineCoordinate (L : LineSet) (line_index : Nat) :
    Option (Vector3 × Vector3) :=
  match L.lines[line_index]? with
  | none => none
  | some e =>
    match L.points[e.1]?, L.points[e.2]? with
    | some p0, some p1 => some (p0, p1)
    | _, _ => none

/-- Modelled from the spec: `IsEmpty()` (declared in LineSet.h line 62,
body not in the given source) is true iff `points` is empty. -/
def LineSet.IsEmpty (L : LineSet) : Bool :=
  !L.HasPoints

/-- Modelled from the spec: `Clear()` (declared in LineSet.h line 60,
body not in the given source) empties `points`, `lines` and `colors`
and returns the mutated instance. -/
def LineSet.Clear (_L : LineSet) : LineSet :=
  { points := [], lines := [], colors := [] }

/-- Sum of a list of vectors (the accumulation loop of `ComputeCenter`). -/
def sumV (l : List Vector3) : Vector3 :=
  l.foldl (· + ·) 0

/-- Modelled from the spec: `GetCenter()` (declared in LineSet.h line 68,
body not in the given source) is the arithmetic mean of all points, and
the zero vector if `points` is empty. -/
def LineSet.GetCenter (L : LineSet) : Vector3 :=
  if L.points.isEmpty then 0
  else ((L.points.length : ℚ))⁻¹ • sumV L.points

/-- Modelled from the spec: `Translate(translation, relative)` (declared
in LineSet.h lines 81-82, body not in the given source): if `relative`
is true, adds `translation` to every point; otherwise adds
`translation - GetCenter()` to every point (moving the center to the
translation vector). -/
def LineSet.Translate (L : LineSet) (translation : Vector3)
    (relative : Bool) : LineSet :=
  let shift := if relative then translation else translation - L.GetCenter
  { L with points := L.points.map (· + shift) }

/-- A 4x4 homogeneous transformation matrix (`Eigen::Matrix4d`). -/
def Matrix4 : Type := Fin 4 → Fin 4 → ℚ

/-- A 3x3 rotation matrix (`Eigen::Matrix3d`). -/
def Matrix3 : Type := Fin 3 → Fin 3 → ℚ

/-- Apply a homogeneous 4x4 matrix to a point: extend with homogeneous
component 1, multiply, and normalize by the resulting homogeneous
component. -/
def transformPoint (M : Matrix4) (p : Vector3) : Vector3 :=
  let x := p.1
  let y := p.2.1
  let z := p.2.2
  let w := M 3 0 * x + M 3 1 * y + M 3 2 * z + M 3 3
  ((M 0 0 * x + M 0 1 * y + M 0 2 * z + M 0 3) / w,
   (M 1 0 * x + M 1 1 * y + M 1 2 * z + M 1 3) / w,
   (M 2 0 * x + M 2 1 * y + M 2 2 * z + M 2 3) / w)

/-- Apply a 3x3 matrix to a point. -/
def rotatePoint (R : Matrix3) (p : Vector3) : Vector3 :=
  let x := p.1
  let y := p.2.1
  let z := p.2.2
  (R 0 0 * x + R 0 1 * y + R 0 2 * z,
   R 1 0 * x + R 1 1 * y + R 1 2 * z,
   R 2 0 * x + R 2 1 * y + R 2 2 * z)

/-- Modelled from the spec: `Transform(transformation)` (declared in
LineSet.h line 74, body not in the given source) applies a general 4x4
homogeneous transform to every point, normalized by the homogeneous
component; `lines` and `colors` are unaffected. -/
def LineSet.Transform (L : LineSet) (transformation : Matrix4) : LineSet :=
  { L with points := L.points.map (transformPoint transformation) }

/-- Modelled from the spec: `Rotate(R, center)` (declared in LineSet.h
line 97, body not in the given source): if `center` is true, rotates
points about the centroid (`p' = centroid + R*(p - centroid)`), else
about the origin; `lines` and `colors` are unaffected. -/
def LineSet.Rotate (L : LineSet) (R : Matrix3) (center : Bool) : LineSet :=
  let c := if center then L.GetCenter else 0
  { L with points := L.points.map (fun p => c + rotatePoint R (p - c)) }

/-- Modelled from the spec: `operator+=` / `operator+` (declared in
LineSet.h lines 99-100, bodies not in the given source) concatenate
another LineSet: new points are appended, the incoming lines are
appended with their indices offset by the prior point count, and colors
are appended as-is. `operator+` builds the result from a copy of the
left operand; `operator+=` assigns it back, so both produce this value. -/
def LineSet.plus (L other : LineSet) : LineSet :=
  { points := L.points ++ other.points,
    lines := L.lines ++
      other.lines.map (fun e =>
        (e.1 + L.points.length, e.2 + L.points.length)),
    colors := L.colors ++ other.colors }

/-- A point cloud, read-only input of the correspondence factory:
an indexable sequence of 3D points. -/
structure PointCloud where
  points : List Vector3

/-- Modelled from the spec: `CreateFromPointCloudCorrespondences
(cloud0, cloud1, correspondences)` (declared in LineSet.h lines
140-143, body not in the given source): for each correspondence pair
`(a, b)`, append `cloud0.points[a]` and `cloud1.points[b]` as two new
points and append a line connecting the two newly appended indices; no
colors are set. The unchecked C++ index reads are embedded with a
default value; the factory's precondition makes the default unreachable. -/
def CreateFromPointCloudCorrespondences (cloud0 cloud1 : PointCloud)
    (correspondences : List (Nat × Nat)) : LineSet :=
  { points := correspondences.flatMap (fun ab =>
      [cloud0.points.getD ab.1 default, cloud1.points.getD ab.2 default]),
    lines := (List.range correspondences.length).map
      (fun k => (2 * k, 2 * k + 1)),
    colors := [] }

/-- Canonical key of an undirected edge: the ordered pair with the
smaller index first. -/
def canonEdge (i j : Nat) : Nat × Nat :=
  if i ≤ j then (i, j) else (j, i)

/-- Insert one edge into the accumulated line list: the edge is stored
under its canonical key and skipped if already present. -/
def insertEdge (acc : List (Nat × Nat)) (i j : Nat) : List (Nat × Nat) :=
  if canonEdge i j ∈ acc then acc else acc ++ [canonEdge i j]

/-- Insert a batch of edges (the edges of one mesh cell) in order. -/
def insertEdges (acc : List (Nat × Nat)) : List (Nat × Nat) → List (Nat × Nat)
  | [] => acc
  | e :: rest => insertEdges (insertEdge acc e.1 e.2) rest

/-- The three edges of a triangle `(v0, v1, v2)`: `v0-v1`, `v1-v2`,
`v2-v0`. -/
def triCellEdges (t : Nat × Nat × Nat) : List (Nat × Nat) :=
  [(t.1, t.2.1), (t.2.1, t.2.2), (t.2.2, t.1)]

/-- The six edges of a tetrahedron `(v0, v1, v2, v3)`: all C(4,2)
vertex pairs. -/
def tetCellEdges (t : Nat × Nat × Nat × Nat) : List (Nat × Nat) :=
  [(t.1, t.2.1), (t.1, t.2.2.1), (t.1, t.2.2.2),
   (t.2.1, t.2.2.1), (t.2.1, t.2.2.2), (t.2.2.1, t.2.2.2)]

/-- A triangle mesh, read-only input: vertex list and triangle list
(3-tuples of vertex indices). -/
structure TriangleMesh where
  vertices : List Vector3
  triangles : List (Nat × Nat × Nat)

/-- A tetra mesh, read-only input: vertex list and tetrahedron list
(4-tuples of vertex indices). -/
structure TetraMesh where
  vertices : List Vector3
  tetras : List (Nat × Nat × Nat × Nat)

/-- Modelled from the spec: `CreateFromTriangleMesh(mesh)` (declared in
LineSet.h lines 161-162, body not in the given source): points are
copied from the mesh's vertex list; lines are the unique undirected
edges of the triangles, deduplicated through a canonical smaller-first
key, emitted in first-seen order. -/
def CreateFromTriangleMesh (mesh : TriangleMesh) : LineSet :=
  { points := mesh.vertices,
    lines := mesh.triangles.foldl
      (fun acc t => insertEdges acc (triCellEdges t)) [],
    colors := [] }

/-- Modelled from the spec: `CreateFromTetraMesh(mesh)` (declared in
LineSet.h line 166, body not in the given source): points are copied
from the mesh's vertex list; lines are the unique undirected edges of
the tetrahedra (all vertex pairs of each cell), deduplicated through a
canonical smaller-first key, emitted in first-seen order. -/
def CreateFromTetraMesh (mesh : TetraMesh) : LineSet :=
  { points := mesh.vertices,
    lines := mesh.tetras.foldl
      (fun acc t => insertEdges acc (tetCellEdges t)) [],
    colors := [] }

/-! ### Claims about the inline header functions -/

/-- Claim C4: for every LineSet, `HasColors()` returns true if and only
if `HasLines()` returns true and `colors.size()` equals `lines.size()`;
in particular a LineSet with mismatched color and line counts reports
`HasColors() == false`. -/
theorem hasColors_iff (L : LineSet) :
    (L.HasColors = true ↔
      L.HasLines = true ∧ L.colors.length = L.lines.length) ∧
    (L.colors.length ≠ L.lines.length → L.HasColors = false) := by
  constructor
  · simp [LineSet.HasColors]
  · intro h
    simp [LineSet.HasColors, h]

/-- Witness for C4: a LineSet with one line but two colors reports
`HasColors() == false`. -/
theorem hasColors_iff_witness :
    (⟨[(0, 0, 0)], [(0, 0)], [(1, 1, 1), (2, 2, 2)]⟩ : LineSet).HasColors
      = false :=
  (hasColors_iff ⟨[(0, 0, 0)], [(0, 0)], [(1, 1, 1), (2, 2, 2)]⟩).2
    (by decide)

/-- Claim C5: for every LineSet, `HasLines()` returns true if and only
if `HasPoints()` returns true and `lines` is non-empty; a LineSet with
lines but no points reports `HasLines() == false`. -/
theorem hasLines_iff (L : LineSet) :
    (L.HasLines = true ↔ L.HasPoints = true ∧ L.lines ≠ []) ∧
    (L.points = [] → L.HasLines = false) := by
  constructor
  · simp [LineSet.HasLines, List.length_pos]
  · intro h
    simp [LineSet.HasLines, LineSet.HasPoints, h]

/-- Witness for C5: a LineSet with a non-empty lines list but an empty
points list reports `HasLines() == false`. -/
theorem hasLines_iff_witness :
    (⟨[], [(0, 1)], []⟩ : LineSet).HasLines = false :=
  (hasLines_iff ⟨[], [(0, 1)], []⟩).2 rfl

/-- Claim C8: after `Clear()` the points, lines and colors containers
are all empty, so `IsEmpty() == true`, `HasLines() == false` and
`HasColors() == false`. -/
theorem clear_spec (L : LineSet) :
    L.Clear.points = [] ∧ L.Clear.lines = [] ∧ L.Clear.colors = [] ∧
    L.Clear.IsEmpty = true ∧ L.Clear.HasLines = false ∧
    L.Clear.HasColors = false :=
  ⟨rfl, rfl, rfl, rfl, rfl, rfl⟩

/-- Claim C10: under the validity precondition, `GetLineCoordinate(k)`
returns the endpoints in exactly the stored order: first the coordinate
of `points[lines[k][0]]`, then the coordinate of `points[lines[k][1]]`,
with no swapping or canonicalization. -/
theorem getLineCoordinate_order (L : LineSet) (k : Nat) (e : Nat × Nat)
    (p q : Vector3) (he : L.lines[k]? = some e)
    (hp : L.points[e.1]? = some p) (hq : L.points[e.2]? = some q) :
    L.GetLineCoordinate k = some (p, q) := by
  simp [LineSet.GetLineCoordinate, he, hp, hq]

/-- Witness for C10: on a concrete LineSet whose single line is stored
as `(1, 0)`, `GetLineCoordinate 0` returns `points[1]` first and
`points[0]` second. -/
theorem getLineCoordinate_order_witness :
    (⟨[(1, 2, 3), (4, 5, 6)], [(1, 0)], []⟩ : LineSet).GetLineCoordinate 0
      = some ((4, 5, 6), (1, 2, 3)) :=
  getLineCoordinate_order ⟨[(1, 2, 3), (4, 5, 6)], [(1, 0)], []⟩ 0 (1, 0)
    (4, 5, 6) (1, 2, 3) rfl rfl rfl

/-- Claim C9: `GetLineCoordinate(k)` succeeds exactly when `k` is a
valid index into `lines` and both point indices stored in `lines[k]`
are valid indices into `points`; under that precondition its accesses
stay in range, and without it the access is the modelled out-of-range
fault (`none`) since the code performs no bounds check. -/
theorem getLineCoordinate_safe (L : LineSet) (k : Nat) :
    ((L.GetLineCoordinate k).isSome = true ↔
      ∃ e, L.lines[k]? = some e ∧
        e.1 < L.points.length ∧ e.2 < L.points.length) ∧
    ((¬ (∃ e, L.lines[k]? = some e ∧
        e.1 < L.points.length ∧ e.2 < L.points.length)) →
      L.GetLineCoordinate k = none) := by
  have hmain : (L.GetLineCoordinate k).isSome = true ↔
      ∃ e, L.lines[k]? = some e ∧
        e.1 < L.points.length ∧ e.2 < L.points.length := by
    cases he : L.lines[k]? with
    | none => simp [LineSet.GetLineCoordinate, he]
    | some e =>
      cases hp : L.points[e.1]? with
      | none =>
        have hlen := List.getElem?_eq_none_iff.mp hp
        simp only [LineSet.GetLineCoordinate, he, hp, Option.isSome_none]
        refine iff_of_false (by decide) ?_
        rintro ⟨f, hf, h1, h2⟩
        cases hf
        omega
      | some p =>
        cases hq : L.points[e.2]? with
        | none =>
          have hlen := List.getElem?_eq_none_iff.mp hq
          simp only [LineSet.GetLineCoordinate, he, hp, hq,
            Option.isSome_none]
          refine iff_of_false (by decide) ?_
          rintro ⟨f, hf, h1, h2⟩
          cases hf
          omega
        | some q =>
          simp only [LineSet.GetLineCoordinate, he, hp, hq,
            Option.isSome_some, true_iff]
          exact ⟨e, rfl, (List.getElem?_eq_some.mp hp).1,
            (List.getElem?_eq_some.mp hq).1⟩
  refine ⟨hmain, fun h => ?_⟩
  have hns : ¬ (L.GetLineCoordinate k).isSome = true :=
    fun hs => h (hmain.mp hs)
  cases hr : L.GetLineCoordinate k with
  | none => rfl
  | some v => rw [hr] at hns; exact absurd rfl hns

/-- Witness for C9: on a concrete LineSet whose line references an
out-of-range point index, `GetLineCoordinate 0` faults (`none`). -/
theorem getLineCoordinate_safe_witness :
    (⟨[(0, 0, 0)], [(0, 5)], []⟩ : LineSet).GetLineCoordinate 0 = none :=
  (getLineCoordinate_safe ⟨[(0, 0, 0)], [(0, 5)], []⟩ 0).2 (by decide)

/-! ### Claims about concatenation and transforms -/

/-- Claim C3: `A + B` (and `A += B`, which produces the same value)
yields a LineSet whose point count is the sum of the two point counts,
whose first `A.lines.size()` lines are exactly A's lines unchanged,
whose remaining lines are B's lines with both indices offset by
`A.points.size()`, and whose colors are A's colors followed by B's
colors, with no deduplication of coincident points. -/
theorem plus_spec (A B : LineSet) :
    (A.plus B).points.length = A.points.length + B.points.length ∧
    (A.plus B).points = A.points ++ B.points ∧
    (A.plus B).lines.take A.lines.length = A.lines ∧
    (A.plus B).lines.drop A.lines.length =
      B.lines.map (fun e =>
        (e.1 + A.points.length, e.2 + A.points.length)) ∧
    (A.plus B).colors = A.colors ++ B.colors := by
  refine ⟨by simp [LineSet.plus], rfl, ?_, ?_, rfl⟩
  · simp [LineSet.plus, List.take_left]
  · simp [LineSet.plus, List.drop_left]

/-- Claim C7: `Transform` with any 4x4 homogeneous matrix and `Rotate`
with any rotation matrix leave the lines and colors containers
unchanged; only the point coordinates are modified. -/
theorem transform_rotate_preserve_topology (L : LineSet) (M : Matrix4)
    (R : Matrix3) (center : Bool) :
    (L.Transform M).lines = L.lines ∧
    (L.Transform M).colors = L.colors ∧
    (L.Rotate R center).lines = L.lines ∧
    (L.Rotate R center).colors = L.colors :=
  ⟨rfl, rfl, rfl, rfl⟩

/-! ### Translation and the centroid -/

/-- Folding addition distributes over a shifted initial accumulator. -/
theorem foldl_add_shift (l : List Vector3) :
    ∀ a b : Vector3, l.foldl (· + ·) (a + b) = l.foldl (· + ·) a + b := by
  induction l with
  | nil => intro a b; rfl
  | cons x xs ih =>
    intro a b
    simp only [List.foldl_cons]
    rw [add_right_comm, ih]

/-- Folding addition over a translated point list adds `length • v`. -/
theorem foldl_map_add (v : Vector3) (l : List Vector3) :
    ∀ init : Vector3, (l.map (fun p => p + v)).foldl (· + ·) init
      = l.foldl (· + ·) init + (l.length : ℚ) • v := by
  induction l with
  | nil => intro init; simp
  | cons x xs ih =>
    intro init
    simp only [List.map_cons, List.foldl_cons, List.length_cons]
    rw [ih, show init + (x + v) = (init + x) + v from by abel,
      foldl_add_shift]
    push_cast
    rw [add_smul, one_smul]
    abel

/-- Summing a translated point list adds `length • v` to the sum. -/
theorem sumV_map_add (l : List Vector3) (v : Vector3) :
    sumV (l.map (fun p => p + v)) = sumV l + (l.length : ℚ) • v :=
  foldl_map_add v l 0

/-- Counterexample to claim C6 as stated: on the empty LineSet,
`Translate((1,0,0), relative=false)` leaves the centroid at the zero
vector, not at the translation target, because there are no points to
move. -/
theorem translate_centroid_cex :
    ¬ ((((⟨[], [], []⟩ : LineSet).Translate (1, 0, 0) false).GetCenter)
        = ((1 : ℚ), (0 : ℚ), (0 : ℚ))) := by decide

/-- Claim C6 (amended to LineSets with at least one point for the
centroid clause): `Translate(t, relative=false)` moves the centroid
(`GetCenter()`) to exactly `t` whenever the point list is non-empty;
for every LineSet it produces the same point set as
`Translate(t - originalCentroid, relative=true)`, and
`Translate(t, relative=true)` adds `t` to every point. -/
theorem translate_spec (L : LineSet) (t : Vector3) :
    (L.points ≠ [] → (L.Translate t false).GetCenter = t) ∧
    (L.Translate t false).points
      = (L.Translate (t - L.GetCenter) true).points ∧
    (L.Translate t true).points = L.points.map (fun p => p + t) := by
  refine ⟨fun h => ?_, rfl, rfl⟩
  have hlen : (L.points.length : ℚ) ≠ 0 := by
    have h0 : L.points.length ≠ 0 := fun h0 => h (List.length_eq_zero.mp h0)
    exact_mod_cast h0
  have hc : L.GetCenter = ((L.points.length : ℚ))⁻¹ • sumV L.points := by
    unfold LineSet.GetCenter
    rw [if_neg (by simp [List.isEmpty_iff, h])]
  have hT : (L.Translate t false).points
      = L.points.map (fun p => p + (t - L.GetCenter)) := rfl
  unfold LineSet.GetCenter
  rw [if_neg (by simp [LineSet.Translate, List.isEmpty_iff, h]), hT,
    List.length_map, sumV_map_add, smul_add, smul_smul,
    inv_mul_cancel₀ hlen, one_smul, ← hc]
  abel

/-- Witness for C6: translating a concrete one-point LineSet with
`relative=false` puts its centroid exactly at the target vector. -/
theorem translate_spec_witness :
    ((⟨[((5 : ℚ), (5 : ℚ), (5 : ℚ))], [], []⟩ : LineSet).Translate
        (1, 2, 3) false).GetCenter = ((1 : ℚ), (2 : ℚ), (3 : ℚ)) :=
  (translate_spec ⟨[((5 : ℚ), (5 : ℚ), (5 : ℚ))], [], []⟩ (1, 2, 3)).1
    (by decide)

/-! ### The correspondence factory -/

/-- The point list built by the correspondence factory, exposed for the
indexing lemma below. -/
def corrPoints (cloud0 cloud1 : PointCloud)
    (correspondences : List (Nat × Nat)) : List Vector3 :=
  correspondences.flatMap (fun ab =>
    [cloud0.points.getD ab.1 default, cloud1.points.getD ab.2 default])

/-- The correspondence factory emits two points per correspondence. -/
theorem corrPoints_length (cloud0 cloud1 : PointCloud)
    (correspondences : List (Nat × Nat)) :
    (corrPoints cloud0 cloud1 correspondences).length
      = 2 * correspondences.length := by
  unfold corrPoints
  induction correspondences with
  | nil => rfl
  | cons x xs ih =>
    simp only [List.flatMap_cons, List.length_append, List.length_cons,
      List.length_nil, ih]
    omega

/-- Point `2k` of the factory output copies the first cloud at the
first index of correspondence `k`, and point `2k+1` copies the second
cloud at its second index. -/
theorem corrPoints_getElem (cloud0 cloud1 : PointCloud) :
    ∀ (correspondences : List (Nat × Nat)) (k : Nat) (ab : Nat × Nat),
      correspondences[k]? = some ab →
      (corrPoints cloud0 cloud1 correspondences)[2 * k]?
          = some (cloud0.points.getD ab.1 default) ∧
      (corrPoints cloud0 cloud1 correspondences)[2 * k + 1]?
          = some (cloud1.points.getD ab.2 default) := by
  intro correspondences
  induction correspondences with
  | nil => intro k ab h; simp at h
  | cons x xs ih =>
    intro k ab h
    cases k with
    | zero =>
      rw [List.getElem?_cons_zero] at h
      cases h
      constructor <;> simp [corrPoints]
    | succ n =>
      rw [List.getElem?_cons_succ] at h
      have hrec := ih n ab h
      have hshape : corrPoints cloud0 cloud1 (x :: xs)
          = cloud0.points.getD x.1 default ::
            cloud1.points.getD x.2 default ::
            corrPoints cloud0 cloud1 xs := rfl
      constructor
      · rw [hshape, show 2 * (n + 1) = (2 * n + 1) + 1 from by ring,
          List.getElem?_cons_succ, List.getElem?_cons_succ]
        exact hrec.1
      · rw [hshape, show 2 * (n + 1) + 1 = ((2 * n + 1) + 1) + 1 from by ring,
          List.getElem?_cons_succ, List.getElem?_cons_succ]
        exact hrec.2

/-- Claim C2: for every pair of point clouds and every correspondence
list of length N whose pairs index validly into the two clouds,
`CreateFromPointCloudCorrespondences` returns a LineSet with exactly
2N points and N lines, where line k connects the points at indices 2k
and 2k+1 (copies of `cloud0.points[a_k]` and `cloud1.points[b_k]`);
points are never shared between correspondences (each correspondence
owns its fresh pair), output line order matches input order, and no
colors are set. -/
theorem createFromPointCloudCorrespondences_spec
    (cloud0 cloud1 : PointCloud) (correspondences : List (Nat × Nat))
    (hvalid : ∀ ab ∈ correspondences,
      ab.1 < cloud0.points.length ∧ ab.2 < cloud1.points.length) :
    (CreateFromPointCloudCorrespondences cloud0 cloud1
        correspondences).points.length = 2 * correspondences.length ∧
    (CreateFromPointCloudCorrespondences cloud0 cloud1
        correspondences).lines.length = correspondences.length ∧
    (∀ k, k < correspondences.length →
      (CreateFromPointCloudCorrespondences cloud0 cloud1
          correspondences).lines[k]? = some (2 * k, 2 * k + 1)) ∧
    (∀ k ab, correspondences[k]? = some ab →
      (CreateFromPointCloudCorrespondences cloud0 cloud1
          correspondences).points[2 * k]? = cloud0.points[ab.1]? ∧
      (CreateFromPointCloudCorrespondences cloud0 cloud1
          correspondences).points[2 * k + 1]? = cloud1.points[ab.2]?) ∧
    (CreateFromPointCloudCorrespondences cloud0 cloud1
        correspondences).colors = [] := by
  refine ⟨corrPoints_length cloud0 cloud1 correspondences, by
      simp [CreateFromPointCloudCorrespondences], fun k hk => ?_,
    fun k ab hab => ?_, rfl⟩
  · show ((List.range correspondences.length).map
        (fun k => (2 * k, 2 * k + 1)))[k]? = some (2 * k, 2 * k + 1)
    rw [List.getElem?_map, List.getElem?_range hk]
    rfl
  · have hmem : ab ∈ correspondences := List.getElem?_mem hab
    have hv := hvalid ab hmem
    have hrec := corrPoints_getElem cloud0 cloud1 correspondences k ab hab
    have h0 : cloud0.points.getD ab.1 default = cloud0.points[ab.1] :=
      List.getD_eq_getElem cloud0.points default hv.1
    have h1 : cloud1.points.getD ab.2 default = cloud1.points[ab.2] :=
      List.getD_eq_getElem cloud1.points default hv.2
    constructor
    · show (corrPoints cloud0 cloud1 correspondences)[2 * k]?
        = cloud0.points[ab.1]?
      rw [hrec.1, h0, List.getElem?_eq_getElem hv.1]
    · show (corrPoints cloud0 cloud1 correspondences)[2 * k + 1]?
        = cloud1.points[ab.2]?
      rw [hrec.2, h1, List.getElem?_eq_getElem hv.2]

/-- Witness for C2: two concrete clouds of size 2 with two
correspondences produce exactly 2*2 points. -/
theorem createFromPointCloudCorrespondences_spec_witness :
    (CreateFromPointCloudCorrespondences ⟨[(0, 0, 0), (1, 1, 1)]⟩
        ⟨[(2, 2, 2), (3, 3, 3)]⟩ [(0, 1), (1, 0)]).points.length
      = 2 * 2 :=
  (createFromPointCloudCorrespondences_spec ⟨[(0, 0, 0), (1, 1, 1)]⟩
    ⟨[(2, 2, 2), (3, 3, 3)]⟩ [(0, 1), (1, 0)] (by decide)).1

/-! ### Mesh-edge factories: deduplicated undirected edges -/

/-- Membership in the result of inserting one edge. -/
theorem mem_insertEdge (acc : List (Nat × Nat)) (i j : Nat)
    (e : Nat × Nat) :
    e ∈ insertEdge acc i j ↔ e ∈ acc ∨ e = canonEdge i j := by
  by_cases h : canonEdge i j ∈ acc
  · simp only [insertEdge, if_pos h]
    constructor
    · exact Or.inl
    · rintro (h1 | rfl)
      · exact h1
      · exact h
  · simp [insertEdge, if_neg h]

/-- Inserting one edge preserves freedom from duplicates. -/
theorem nodup_insertEdge (acc : List (Nat × Nat)) (i j : Nat)
    (h : acc.Nodup) : (insertEdge acc i j).Nodup := by
  unfold insertEdge
  split
  · exact h
  · rename_i hn
    simp [List.nodup_append, h, hn]

/-- Inserting one edge preserves canonicity (smaller index first). -/
theorem ordered_insertEdge (acc : List (Nat × Nat)) (i j : Nat)
    (h : ∀ e ∈ acc, e.1 ≤ e.2) :
    ∀ e ∈ insertEdge acc i j, e.1 ≤ e.2 := by
  intro e he
  rw [mem_insertEdge] at he
  rcases he with he | rfl
  · exact h e he
  · by_cases hij : i ≤ j
    · simp [canonEdge, hij]
    · simp [canonEdge, hij]
      omega

/-- Membership in the result of inserting a batch of edges. -/
theorem mem_insertEdges (es : List (Nat × Nat)) :
    ∀ (acc : List (Nat × Nat)) (e : Nat × Nat),
      e ∈ insertEdges acc es ↔
        e ∈ acc ∨ ∃ p ∈ es, e = canonEdge p.1 p.2 := by
  induction es with
  | nil => intro acc e; simp [insertEdges]
  | cons x xs ih =>
    intro acc e
    rw [show insertEdges acc (x :: xs)
        = insertEdges (insertEdge acc x.1 x.2) xs from rfl, ih,
      mem_insertEdge]
    simp only [List.mem_cons]
    constructor
    · rintro ((h | rfl) | ⟨p, hp, rfl⟩)
      · exact Or.inl h
      · exact Or.inr ⟨x, Or.inl rfl, rfl⟩
      · exact Or.inr ⟨p, Or.inr hp, rfl⟩
    · rintro (h | ⟨p, (rfl | hp), rfl⟩)
      · exact Or.inl (Or.inl h)
      · exact Or.inl (Or.inr rfl)
      · exact Or.inr ⟨p, hp, rfl⟩

/-- Inserting a batch of edges preserves freedom from duplicates. -/
theorem nodup_insertEdges (es : List (Nat × Nat)) :
    ∀ acc : List (Nat × Nat), acc.Nodup → (insertEdges acc es).Nodup := by
  induction es with
  | nil => intro acc h; exact h
  | cons x xs ih => intro acc h; exact ih _ (nodup_insertEdge _ _ _ h)

/-- Inserting a batch of edges preserves canonicity. -/
theorem ordered_insertEdges (es : List (Nat × Nat)) :
    ∀ acc : List (Nat × Nat), (∀ e ∈ acc, e.1 ≤ e.2) →
      ∀ e ∈ insertEdges acc es, e.1 ≤ e.2 := by
  induction es with
  | nil => intro acc h; exact h
  | cons x xs ih => intro acc h; exact ih _ (ordered_insertEdge _ _ _ h)

/-- Membership in the edge accumulation over a list of mesh cells:
exactly the starting edges plus the canonical forms of the edges of the
cells. -/
theorem mem_foldl_insertEdges {C : Type} (edges : C → List (Nat × Nat)) :
    ∀ (cells : List C) (acc : List (Nat × Nat)) (e : Nat × Nat),
      e ∈ cells.foldl (fun a c => insertEdges a (edges c)) acc ↔
        e ∈ acc ∨ ∃ c ∈ cells, ∃ p ∈ edges c, e = canonEdge p.1 p.2 := by
  intro cells
  induction cells with
  | nil => intro acc e; simp
  | cons c cs ih =>
    intro acc e
    rw [List.foldl_cons, ih, mem_insertEdges]
    simp only [List.mem_cons]
    constructor
    · rintro ((h | ⟨p, hp, rfl⟩) | ⟨d, hd, p, hp, rfl⟩)
      · exact Or.inl h
      · exact Or.inr ⟨c, Or.inl rfl, p, hp, rfl⟩
      · exact Or.inr ⟨d, Or.inr hd, p, hp, rfl⟩
    · rintro (h | ⟨d, (rfl | hd), p, hp, rfl⟩)
      · exact Or.inl (Or.inl h)
      · exact Or.inl (Or.inr ⟨p, hp, rfl⟩)
      · exact Or.inr ⟨d, hd, p, hp, rfl⟩

/-- Edge accumulation over mesh cells preserves freedom from
duplicates. -/
theorem nodup_foldl_insertEdges {C : Type} (edges : C → List (Nat × Nat)) :
    ∀ (cells : List C) (acc : List (Nat × Nat)), acc.Nodup →
      (cells.foldl (fun a c => insertEdges a (edges c)) acc).Nodup := by
  intro cells
  induction cells with
  | nil => intro acc h; exact h
  | cons c cs ih => intro acc h; exact ih _ (nodup_insertEdges _ _ h)

/-- Edge accumulation over mesh cells preserves canonicity. -/
theorem ordered_foldl_insertEdges {C : Type}
    (edges : C → List (Nat × Nat)) :
    ∀ (cells : List C) (acc : List (Nat × Nat)),
      (∀ e ∈ acc, e.1 ≤ e.2) →
      ∀ e ∈ cells.foldl (fun a c => insertEdges a (edges c)) acc,
        e.1 ≤ e.2 := by
  intro cells
  induction cells with
  | nil => intro acc h; exact h
  | cons c cs ih => intro acc h; exact ih _ (ordered_insertEdges _ _ h)

/-- The undirected edge `i`-`j` is an edge of the triangle `t`. -/
def TriHasEdge (t : Nat × Nat × Nat) (i j : Nat) : Prop :=
  ∃ p ∈ triCellEdges t, canonEdge i j = canonEdge p.1 p.2

/-- The undirected edge `i`-`j` is an edge of the tetrahedron `t`. -/
def TetHasEdge (t : Nat × Nat × Nat × Nat) (i j : Nat) : Prop :=
  ∃ p ∈ tetCellEdges t, canonEdge i j = canonEdge p.1 p.2

/-- Two triangles sharing the edge `1`-`2`. -/
def twoTriangleMesh : TriangleMesh :=
  ⟨[(0, 0, 0), (1, 0, 0), (0, 1, 0), (1, 1, 0)], [(0, 1, 2), (1, 2, 3)]⟩

/-- A single tetrahedron. -/
def oneTetraMesh : TetraMesh :=
  ⟨[(0, 0, 0), (1, 0, 0), (0, 1, 0), (0, 0, 1)], [(0, 1, 2, 3)]⟩

/-- Claim C1: `CreateFromTriangleMesh` and `CreateFromTetraMesh`
produce a LineSet whose lines are exactly the unique undirected edges
of the mesh's cells: every emitted line is stored canonically (an edge
`i`-`j` identified with `j`-`i`), no undirected edge appears twice, an
undirected edge appears iff some cell has it, and points are the mesh's
vertices; in particular two triangles sharing one edge yield 5 lines
and a single tetrahedron yields 6 lines. -/
theorem createFromMesh_unique_edges :
    (∀ mesh : TriangleMesh,
      (CreateFromTriangleMesh mesh).points = mesh.vertices ∧
      (CreateFromTriangleMesh mesh).lines.Nodup ∧
      (∀ e ∈ (CreateFromTriangleMesh mesh).lines, e.1 ≤ e.2) ∧
      (∀ i j, canonEdge i j ∈ (CreateFromTriangleMesh mesh).lines ↔
        ∃ t ∈ mesh.triangles, TriHasEdge t i j)) ∧
    (∀ mesh : TetraMesh,
      (CreateFromTetraMesh mesh).points = mesh.vertices ∧
      (CreateFromTetraMesh mesh).lines.Nodup ∧
      (∀ e ∈ (CreateFromTetraMesh mesh).lines, e.1 ≤ e.2) ∧
      (∀ i j, canonEdge i j ∈ (CreateFromTetraMesh mesh).lines ↔
        ∃ t ∈ mesh.tetras, TetHasEdge t i j)) ∧
    (CreateFromTriangleMesh twoTriangleMesh).lines.length = 5 ∧
    (CreateFromTetraMesh oneTetraMesh).lines.length = 6 := by
  refine ⟨fun mesh => ⟨rfl, ?_, ?_, fun i j => ?_⟩,
    fun mesh => ⟨rfl, ?_, ?_, fun i j => ?_⟩, by decide, by decide⟩
  · exact nodup_foldl_insertEdges triCellEdges mesh.triangles []
      List.nodup_nil
  · exact ordered_foldl_insertEdges triCellEdges mesh.triangles []
      (by intro e he; simp at he)
  · rw [show (CreateFromTriangleMesh mesh).lines
        = mesh.triangles.foldl (fun a c => insertEdges a (triCellEdges c)) []
      from rfl, mem_foldl_insertEdges]
    simp only [List.not_mem_nil, false_or]
    exact Iff.rfl
  · exact nodup_foldl_insertEdges tetCellEdges mesh.tetras []
      List.nodup_nil
  · exact ordered_foldl_insertEdges tetCellEdges mesh.tetras []
      (by intro e he; simp at he)
  · rw [show (CreateFromTetraMesh mesh).lines
        = mesh.tetras.foldl (fun a c => insertEdges a (tetCellEdges c)) []
      from rfl, mem_foldl_insertEdges]
    simp only [List.not_mem_nil, false_or]
    exact Iff.rfl

/-- Witness for C1: the shared edge of the two-triangle mesh appears in
the output (queried in reversed vertex order, confirming undirected
identification). -/
theorem createFromMesh_unique_edges_witness :
    canonEdge 2 1 ∈ (CreateFromTriangleMesh twoTriangleMesh).lines :=
  ((createFromMesh_unique_edges.1 twoTriangleMesh).2.2.2 2 1).mpr
    ⟨(0, 1, 2), by decide, (1, 2), by decide, by decide⟩

end Open3DLineSet
